import Mathlib

/-!
Verification of `datashark-processors-independent`.

The repository ships three processors:
  * `extractor.py` — zip/tar archive extraction with a path-traversal guard,
  * `hasher.py` — multi-algorithm streaming file hashing with a CSV-like report,
  * `yara.py`   — a thin wrapper around an external yara binary.

This file shallowly embeds the Python code of those modules.  Paths follow
POSIX `pathlib` semantics (the processors are declared `System.INDEPENDENT`
and archive member names are POSIX-style).  Python `async def` functions are
embedded as plain functions wrapped in a `Coroutine` value: *calling* an
async function in Python builds a coroutine object without running its body;
only `await` runs it.  The source of `extractor.py` and of the row loop of
`hasher.py` calls async methods without `await`, and the embedding keeps
that behaviour.
-/

/-! ## POSIX path model (pathlib semantics)

`pathlib.PurePosixPath(s).parts` drops empty components and `.` components;
`is_absolute()` is true exactly when the path starts with `/`; `name` is the
last component; `suffix` is `name[i:]` where `i = name.rfind('.')`, provided
`0 < i < len(name) - 1`, else the empty string; `stem` is the complementary
prefix `name[:i]` under the same condition, else the whole name. -/

/-- Split a character list on a separator character, Python `str.split(sep)`
style: no merging of adjacent separators, empty pieces are kept. -/
def splitOnChar (sep : Char) : List Char → List (List Char)
  | [] => [[]]
  | c :: rest =>
    if c = sep then [] :: splitOnChar sep rest
    else
      match splitOnChar sep rest with
      | [] => [[c]]
      | g :: gs => (c :: g) :: gs

/-- True when the path string starts with `/` — `PurePosixPath.is_absolute`. -/
def isAbsolute (s : String) : Bool :=
  match s.data with
  | '/' :: _ => true
  | _ => false

/-- The path components of `s` as `pathlib` reports them in `parts`
(ignoring the root entry): empty components and `.` components are dropped,
everything else — including `..` — is kept. -/
def pathSegments (s : String) : List String :=
  ((splitOnChar '/' s.data).map (fun g => String.mk g)).filter
    (fun t => t ≠ "" && t ≠ ".")

/-- Final path component — `pathlib`'s `name` (empty for a root or empty path). -/
def pathName (s : String) : String :=
  (pathSegments s).getLast?.getD ""

/-- Position of the last `.` of the name, counted from the end: index of the
first `.` in the reversed character list of the name. -/
def lastDotFromEnd (s : String) : Option Nat :=
  ((pathName s).data.reverse).findIdx? (fun c => c = '.')

/-- The final extension of the path — `pathlib`'s `suffix`: `name[i:]` for
`i = name.rfind('.')` when `0 < i < len(name) - 1`, otherwise `""`. -/
def pathSuffix (s : String) : String :=
  let r := (pathName s).data.reverse
  match r.findIdx? (fun c => c = '.') with
  | none => ""
  | some j => if 0 < j ∧ j < r.length - 1 then String.mk ('.' :: (r.take j).reverse) else ""

/-- The name without its final extension — `pathlib`'s `stem`: `name[:i]`
under the same condition as `pathSuffix`, otherwise the whole name. -/
def pathStem (s : String) : String :=
  let r := (pathName s).data.reverse
  match r.findIdx? (fun c => c = '.') with
  | none => pathName s
  | some j =>
    if 0 < j ∧ j < r.length - 1 then String.mk ((r.drop (j + 1)).reverse) else pathName s

/-- Relative path of `f` with respect to root `root` — `Path.relative_to`:
the components of `f` past the components of the root, re-joined with `/`. -/
def relativeTo (f root : String) : String :=
  String.intercalate "/" ((pathSegments f).drop (pathSegments root).length)

/-! ## Python coroutine values

Calling an `async def` function returns a coroutine object; the body runs
only when the coroutine is awaited.  `Coroutine.body` is the result the body
would produce if awaited. -/

/-- A Python coroutine object: holds the (not yet executed) body's outcome. -/
structure Coroutine (α : Type) where
  body : α

/-- Python-level runtime errors raised by the embedded fragments. -/
inductive PyError
  | nameError (ident : String)
  | typeError (msg : String)
  | readError
  | badZipFile
  deriving DecidableEq, Repr

/-! ## extractor.py -/

/-- Module-level `__check_path_traversal` of `extractor.py` (lines 18–27):
returns `true` when the member name is an absolute path, `true` when `..`
occurs among the path's parts, and `false` otherwise.  (The logging calls
are side-effect-free for the result and are not modelled.) -/
def check_path_traversal (name : String) : Bool :=
  if isAbsolute name then true
  else if ".." ∈ pathSegments name then true
  else false

/-- The spec's wording of the traversal predicate, for comparison with the
code's `check_path_traversal`: the name is absolute, or some path segment
equals the parent-directory token `..`. -/
def isTraversalSpec (name : String) : Prop :=
  isAbsolute name = true ∨ ".." ∈ pathSegments name

instance (name : String) : Decidable (isTraversalSpec name) := by
  unfold isTraversalSpec; infer_instance

/-- C1: the traversal check returns true iff the member name, interpreted as
a path, is absolute or has a `..` path segment; in particular it is false on
ordinary relative names, even with nested intermediate directories, and it
does not fire on mere `..` substrings inside a segment. -/
theorem check_path_traversal_iff :
    (∀ n : String, check_path_traversal n = true ↔ isTraversalSpec n)
    ∧ check_path_traversal "a/b/c" = false
    ∧ check_path_traversal "..hidden/ok.txt" = false
    ∧ check_path_traversal "/etc/passwd" = true
    ∧ check_path_traversal "a/../b" = true
    ∧ check_path_traversal ".." = true := by
  refine ⟨fun n => ?_, by decide, by decide, by decide, by decide, by decide⟩
  unfold check_path_traversal isTraversalSpec
  by_cases ha : isAbsolute n
  · simp [ha]
  · by_cases hm : ".." ∈ pathSegments n <;> simp [ha, hm]

/-! ## extractor.py — archives and codecs

An archive on disk is a byte blob; for the embedding only its container
format and its member-name index matter.  `zipBlob` is a zip image,
`tarBlob` an uncompressed tar image, `compressedTarBlob` a gzip/bzip2/xz
wrapper around a tar image (a `.tar.gz`-style file). -/

/-- The on-disk content of an archive file, abstracted to its container
format and member-name index. -/
inductive ArchiveBlob
  | zipBlob (members : List String)
  | tarBlob (members : List String)
  | compressedTarBlob (members : List String)
  deriving DecidableEq, Repr

/-- Opening the blob with `zipfile.ZipFile(path)` (line 61): succeeds on a
zip image, returning the member-name index (`namelist()` order); raises
`BadZipFile` on anything else. -/
def ZipFile_init : ArchiveBlob → Except PyError (List String)
  | .zipBlob ms => .ok ms
  | _ => .error .badZipFile

/-- Opening the blob with `tarfile.TarFile(path)` (line 71).  This is the
`TarFile` class constructor, not `tarfile.open`: with its default mode `r`
it reads an *uncompressed* tar stream and performs no compression
auto-detection (only the `tarfile.open` factory does), so it succeeds only
on a plain tar image and raises `ReadError` on a compressed one (the
gzip/bzip2/xz magic is not a valid tar header). -/
def TarFile_init : ArchiveBlob → Except PyError (List String)
  | .tarBlob ms => .ok ms
  | _ => .error .readError

/-- The body of `ExtractorProcessor.__process_zip` (lines 59–67) as it would
execute if its coroutine were awaited: open the archive with `ZipFile`, then
loop over `namelist()`, testing each name with `if __check_path_traversal(name)`.
`__check_path_traversal` occurs textually inside the class body, so Python
private-name mangling rewrites the reference to
`_ExtractorProcessor__check_path_traversal`; no such global exists (the
function is defined at module level under its unmangled name), so the first
loop iteration raises `NameError`.  Result: the extracted-member list, or
the first error. -/
def process_zip_body (blob : ArchiveBlob) : Except PyError (List String) :=
  match ZipFile_init blob with
  | .error e => .error e
  | .ok [] => .ok []
  | .ok (_ :: _) => .error (.nameError "_ExtractorProcessor__check_path_traversal")

/-- The body of `ExtractorProcessor.__process_tar` (lines 69–75) as it would
execute if awaited: open with the `TarFile` constructor, then loop over
`getnames()`; the same mangled reference to `__check_path_traversal` raises
`NameError` at the first member. -/
def process_tar_body (blob : ArchiveBlob) : Except PyError (List String) :=
  match TarFile_init blob with
  | .error e => .error e
  | .ok [] => .ok []
  | .ok (_ :: _) => .error (.nameError "_ExtractorProcessor__check_path_traversal")

/-- Which codec `ExtractorProcessor._run` selects. -/
inductive Codec
  | zip
  | tar
  deriving DecidableEq, Repr

/-- The dispatch condition of `ExtractorProcessor._run` (lines 95–98):
`archive_path.suffix == '.zip'` selects the zip codec, anything else the
tar codec. -/
def dispatch (archive_path : String) : Codec :=
  if pathSuffix archive_path = ".zip" then .zip else .tar

/-- Lines 94–98 of `ExtractorProcessor._run`, after the existence check and
`output_dir.mkdir`: on the zip branch `self.__process_zip(...)` is called,
on the other branch `self.__process_tar(...)` — in both cases *without*
`await`, so the call only builds a coroutine object which is immediately
discarded; its body never runs.  The result is the list of member names
written into the output directory, which is therefore always empty. -/
def extractor_run (archive_path : String) (blob : ArchiveBlob) : List String :=
  let _coro : Coroutine (Except PyError (List String)) :=
    if pathSuffix archive_path = ".zip" then ⟨process_zip_body blob⟩
    else ⟨process_tar_body blob⟩
  []

/-- C2 (code bug): on a zip archive holding one traversal member and one
legitimate member, `_run` writes nothing at all — the codec coroutine is
never awaited (lines 96/98 lack `await`), so no member, in particular not
the legitimate `ok.txt`, reaches the output directory; and even the codec
body, were it awaited, would raise `NameError` on the mangled
`__check_path_traversal` reference instead of extracting. -/
theorem extractor_run_extracts_nothing :
    extractor_run "/work/a.zip" (.zipBlob ["../evil.txt", "ok.txt"]) = []
    ∧ process_zip_body (.zipBlob ["../evil.txt", "ok.txt"])
        = .error (.nameError "_ExtractorProcessor__check_path_traversal")
    ∧ check_path_traversal "../evil.txt" = true
    ∧ check_path_traversal "ok.txt" = false := by
  refine ⟨rfl, rfl, by decide, by decide⟩

/-- C3 counterexample: a `.tar.gz` archive is routed to the tar codec, but a
compressed tar blob does not extract successfully — the `TarFile`
constructor used by the codec raises `ReadError` on it (no compression
self-detection), and the run itself writes nothing. -/
theorem tar_gz_does_not_extract :
    dispatch "x.tar.gz" = Codec.tar
    ∧ TarFile_init (.compressedTarBlob ["a.txt"]) = .error .readError
    ∧ extractor_run "x.tar.gz" (.compressedTarBlob ["a.txt"]) = [] := by
  refine ⟨by decide, rfl, rfl⟩

/-- C3 amended: format dispatch is decided solely by the file extension —
the zip codec is selected exactly when the suffix is `.zip`, everything
else goes to the tar codec — but compressed tar variants do not extract
successfully, because the tar codec opens archives with the `TarFile`
constructor, which reads only uncompressed tar and does not self-detect
compression. -/
theorem dispatch_by_extension (p : String) (ms : List String) :
    (dispatch p = Codec.zip ↔ pathSuffix p = ".zip")
    ∧ (dispatch p = Codec.tar ↔ pathSuffix p ≠ ".zip")
    ∧ TarFile_init (.compressedTarBlob ms) = .error .readError := by
  refine ⟨?_, ?_, rfl⟩ <;> unfold dispatch <;> split <;> simp_all

/-- C10: zip dispatch is case-sensitive and exact — any archive path whose
computed suffix differs from the literal `.zip` is routed to the tar codec. -/
theorem dispatch_case_sensitive (p : String) (h : pathSuffix p ≠ ".zip") :
    dispatch p = Codec.tar := by
  unfold dispatch
  simp [h]

/-- Witness for C10 at the concrete path `archive.ZIP`: its suffix is the
uppercase `.ZIP`, which is not `.zip`, and it is routed to the tar codec. -/
theorem dispatch_case_sensitive_witness :
    pathSuffix "archive.ZIP" = ".ZIP"
    ∧ pathSuffix "archive.ZIP" ≠ ".zip"
    ∧ dispatch "archive.ZIP" = Codec.tar :=
  ⟨by decide, by decide, dispatch_case_sensitive "archive.ZIP" (by decide)⟩

/-! ## hasher.py — algorithms, digest states, chunked reading -/

/-- Python's `hashlib.algorithms_guaranteed` (the fixed registry the hasher
intersects requests with), as a list. -/
def algorithms_guaranteed : List String :=
  ["blake2b", "blake2s", "md5", "sha1", "sha224", "sha256", "sha384",
   "sha3_224", "sha3_256", "sha3_384", "sha3_512", "sha512",
   "shake_128", "shake_256"]

/-- Lexicographic order on character lists by code point — how Python
compares strings. -/
def leChars : List Char → List Char → Bool
  | [], _ => true
  | _ :: _, [] => false
  | c :: cs, d :: ds =>
    if c.toNat < d.toNat then true
    else if c.toNat = d.toNat then leChars cs ds else false

/-- Python's `<=` on strings: lexicographic by code point. -/
def pyLe (a b : String) : Prop :=
  leChars a.data b.data = true

instance : DecidableRel pyLe := fun a b => by
  unfold pyLe
  infer_instance

lemma leChars_total : ∀ a b : List Char, leChars a b = true ∨ leChars b a = true
  | [], _ => Or.inl rfl
  | _ :: _, [] => Or.inr rfl
  | c :: cs, d :: ds => by
    rcases Nat.lt_trichotomy c.toNat d.toNat with h | h | h
    · left; simp [leChars, h]
    · rcases leChars_total cs ds with ih | ih
      · left; simp [leChars, h, ih]
      · right; simp [leChars, h.symm, ih]
    · right; simp [leChars, h]

lemma leChars_trans : ∀ a b c : List Char,
    leChars a b = true → leChars b c = true → leChars a c = true
  | [], _, _, _, _ => rfl
  | _ :: _, [], _, h1, _ => by simp [leChars] at h1
  | _ :: _, _ :: _, [], _, h2 => by simp [leChars] at h2
  | x :: xs, y :: ys, z :: zs, h1, h2 => by
    simp only [leChars] at h1 h2 ⊢
    rcases Nat.lt_trichotomy x.toNat y.toNat with hxy | hxy | hxy <;>
      rcases Nat.lt_trichotomy y.toNat z.toNat with hyz | hyz | hyz
    · simp [show x.toNat < z.toNat from Nat.lt_trans hxy hyz]
    · simp [show x.toNat < z.toNat from hyz ▸ hxy]
    · simp [show ¬ y.toNat < z.toNat by omega, show ¬ y.toNat = z.toNat by omega] at h2
    · simp [show x.toNat < z.toNat by omega]
    · simp only [show ¬ x.toNat < y.toNat by omega, if_false, if_pos hxy] at h1
      simp only [show ¬ y.toNat < z.toNat by omega, if_false, if_pos hyz] at h2
      have hxz : x.toNat = z.toNat := by omega
      simp [show ¬ x.toNat < z.toNat by omega, hxz, leChars_trans xs ys zs h1 h2]
    · simp [show ¬ y.toNat < z.toNat by omega, show ¬ y.toNat = z.toNat by omega] at h2
    · simp [show ¬ x.toNat < y.toNat by omega, show ¬ x.toNat = y.toNat by omega] at h1
    · simp [show ¬ x.toNat < y.toNat by omega, show ¬ x.toNat = y.toNat by omega] at h1
    · simp [show ¬ x.toNat < y.toNat by omega, show ¬ x.toNat = y.toNat by omega] at h1

instance : IsTotal String pyLe :=
  ⟨fun a b => leChars_total a.data b.data⟩

instance : IsTrans String pyLe :=
  ⟨fun a b c => leChars_trans a.data b.data c.data⟩

/-- Python `sorted` on strings: an insertion sort by the lexicographic
code-point order.  Equal strings are identical, so stability is irrelevant
and any correct sort computes exactly what `sorted` returns. -/
def pySorted (l : List String) : List String :=
  l.insertionSort pyLe

/-- An incremental digest state as `hashlib` specifies it: `update` appends
to the logical message and `hexdigest` is the algorithm's digest of all
bytes fed so far (`m.update(a); m.update(b)` is equivalent to
`m.update(a + b)`).  `alg` is the algorithm name passed to `hashlib.new`,
`fed` the bytes fed so far. -/
structure MdState where
  alg : String
  fed : List Nat
  deriving DecidableEq, Repr

/-- Fresh digest state — `hashlib.new(alg)` (line 53). -/
def new_md (alg : String) : MdState :=
  ⟨alg, []⟩

/-- Feeding a chunk — `md_.update(chunk)` (line 57). -/
def MdState.update (st : MdState) (chunk : List Nat) : MdState :=
  ⟨st.alg, st.fed ++ chunk⟩

/-- Finalisation — `md_.hexdigest()` (line 58): the reference hash function
`H` for the state's algorithm, applied to every byte fed so far.  `H` is a
parameter standing for the family of reference implementations behind
`hashlib`. -/
def MdState.hexdigest (H : String → List Nat → String) (st : MdState) : String :=
  H st.alg st.fed

/-- The fixed read size of `iter_chunked` at line 55: 1 MiB. -/
def CHUNK : Nat := 1024 * 1024

/-- Split a byte list into consecutive pieces of `CHUNK` bytes (the last
piece may be shorter); `fuel` bounds the recursion and any value at least
the list length is enough. -/
def chunkedAux : Nat → List Nat → List (List Nat)
  | 0, _ => []
  | _, [] => []
  | fuel + 1, c => c.take CHUNK :: chunkedAux fuel (c.drop CHUNK)

/-- The chunk sequence `iter_chunked(1024*1024)` yields for a file whose
byte content is `content`. -/
def chunked (content : List Nat) : List (List Nat) :=
  chunkedAux content.length content

/-- The chunk loop of lines 55–57: every chunk is fed to the digest state. -/
def feedChunks (st : MdState) (chunks : List (List Nat)) : MdState :=
  chunks.foldl MdState.update st

/-- `HasherProcessor.__process_file` (lines 51–58) on a file whose byte
content is `content`: one digest state per algorithm (the dict of line 53 is
keyed by algorithm, built over `sorted(hashers)`), every 1 MiB chunk fed to
every state in one pass, and the hex digests returned in `sorted(hashers)`
order (line 58). -/
def process_file (H : String → List Nat → String) (hashers : List String)
    (content : List Nat) : List String :=
  (pySorted hashers).map fun h => MdState.hexdigest H (feedChunks (new_md h) (chunked content))

/-- Python `','.join` (lines 90 and 106). -/
def commaJoin (l : List String) : String :=
  String.intercalate "," l

/-- The header line built at line 90:
`','.join(list(sorted(hashers)) + ['filepath'])`. -/
def reportHeader (hashers : List String) : String :=
  commaJoin (pySorted hashers ++ ["filepath"])

lemma feedChunks_eq (a : String) (fed : List Nat) (cs : List (List Nat)) :
    feedChunks ⟨a, fed⟩ cs = ⟨a, fed ++ cs.flatten⟩ := by
  induction cs generalizing fed with
  | nil => simp [feedChunks]
  | cons c rest ih =>
    simp only [feedChunks, List.foldl_cons, MdState.update] at *
    rw [ih (fed ++ c)]
    simp

lemma chunkedAux_join (fuel : Nat) (c : List Nat) (h : c.length ≤ fuel) :
    (chunkedAux fuel c).flatten = c := by
  induction fuel generalizing c with
  | zero =>
    have : c = [] := List.eq_nil_of_length_eq_zero (Nat.le_zero.mp h)
    simp [this, chunkedAux]
  | succ fuel ih =>
    match c with
    | [] => simp [chunkedAux]
    | b :: rest =>
      have hlen : ((b :: rest).drop CHUNK).length ≤ fuel := by
        simp only [List.length_drop]
        have hc : 1 ≤ CHUNK := by unfold CHUNK; omega
        have := h
        simp only [List.length_cons] at this
        omega
      simp only [chunkedAux, List.flatten_cons]
      rw [ih _ hlen, List.take_append_drop]

/-- Concatenating the 1 MiB chunks of a file recovers the file's content. -/
lemma chunked_join (content : List Nat) : (chunked content).flatten = content :=
  chunkedAux_join content.length content le_rfl

/-- Shared closed form of `__process_file`: the digest list is the reference
digest of the *full* content, one entry per algorithm, in sorted order. -/
lemma process_file_spec (H : String → List Nat → String) (hashers : List String)
    (content : List Nat) :
    process_file H hashers content = (pySorted hashers).map (fun h => H h content) := by
  unfold process_file
  refine List.map_congr_left fun h _ => ?_
  rw [new_md, feedChunks_eq, MdState.hexdigest]
  simp [chunked_join]

/-- C4: for a non-empty algorithm set, each hex digest returned by the
per-file computation equals the reference hash algorithm applied to the full
byte content of the file, the file being read in fixed 1 MiB chunks
(`CHUNK = 1024 * 1024`).  The embedding is a pure function of the file's
byte content, so repeated invocations on an unmodified file are identical by
construction; the substantive fact is the closed form below, which depends
only on `content`. -/
theorem process_file_correct (H : String → List Nat → String) (A : List String)
    (content : List Nat) (_hA : A ≠ []) :
    process_file H A content = (pySorted A).map (fun h => H h content)
    ∧ CHUNK = 1024 * 1024 :=
  ⟨process_file_spec H A content, rfl⟩

/-- A concrete stand-in for the reference hash family, used to instantiate
witnesses. -/
def demoHash (a : String) (m : List Nat) : String :=
  a ++ "-" ++ toString m.length

/-- Witness for C4 at a concrete algorithm set and file content. -/
theorem process_file_correct_witness :
    (["sha1", "md5"] : List String) ≠ []
    ∧ (process_file demoHash ["sha1", "md5"] [7, 0, 255]
        = (pySorted ["sha1", "md5"]).map (fun h => demoHash h [7, 0, 255])
      ∧ CHUNK = 1024 * 1024) :=
  ⟨by decide, process_file_correct demoHash ["sha1", "md5"] [7, 0, 255] (by decide)⟩

/-- C5: the header line is the comma-join of the requested algorithm names
in sorted (lexicographic) order followed by `filepath`, and each row's
digests are produced in exactly that same sorted order — the k-th digest of
a row belongs to the k-th algorithm of the header. -/
theorem report_order (H : String → List Nat → String) (hashers : List String)
    (content : List Nat) :
    List.Sorted pyLe (pySorted hashers)
    ∧ List.Perm (pySorted hashers) hashers
    ∧ reportHeader hashers = commaJoin (pySorted hashers ++ ["filepath"])
    ∧ process_file H hashers content = (pySorted hashers).map (fun h => H h content) := by
  refine ⟨List.sorted_insertionSort _ _, List.perm_insertionSort _ _, rfl,
    process_file_spec H hashers content⟩

/-! ## hasher.py — the `_run` pipeline -/

/-- Modelled from the spec: `prepend_workdir` lives in
`datashark_core.filesystem`, outside this repository's sources; per the spec
a relative PATH argument is joined against the sandbox root and an absolute
one is kept as is. -/
def prepend_workdir (wd p : String) : String :=
  if isAbsolute p then p else wd ++ "/" ++ p

/-- One entry of the `arguments` list handed to `HasherProcessor._run`:
the argument's name and its raw string value (`get_value()`). -/
structure ProcArg where
  name : String
  value : String
  deriving DecidableEq, Repr

/-- The filesystem facts `_run` consults: regular-file and directory status
of a path, the recursive walk `rglob('*')` returns for a directory (in walk
order), and the byte content of a file. -/
structure FS where
  isFile : String → Bool
  isDir : String → Bool
  walk : String → List String
  content : String → List Nat

/-- Observable filesystem actions of a hasher run, in order: creating/opening
the output file for writing, writing one line to it, opening an input file
for reading. -/
inductive HasherEvent
  | createOutput (path : String)
  | writeLine (line : String)
  | openInput (path : String)
  deriving DecidableEq, Repr

/-- Errors a hasher run can raise: `ProcessorError` with its message, or a
Python `TypeError`. -/
inductive HasherError
  | procError (msg : String)
  | typeError (msg : String)
  deriving DecidableEq, Repr

/-- Line 72–74: `set(value.split(',')).intersection(algorithms_guaranteed)`
— split the request on commas, keep the recognised names, de-duplicate.
(Python's set iteration order is unspecified, but every later use sorts the
list, so the order chosen here is unobservable.) -/
def parseHashers (v : String) : List String :=
  (((splitOnChar ',' v.data).map (fun g => String.mk g)).filter
    (fun h => h ∈ algorithms_guaranteed)).dedup

/-- The three locals of the argument loop of `_run` (lines 67–69). -/
structure LoopState where
  hashers : Option (List String)
  filepath : Option String
  output_file : Option String
  deriving DecidableEq, Repr

/-- The argument loop of `HasherProcessor._run` (lines 70–85): arguments are
examined in list order; a `hashers` argument whose parsed list is empty
raises `ProcessorError` at once; a `filepath` argument is resolved against
the workdir and must exist as a file or directory; an `output_file` argument
is resolved and stored; any other name is ignored. -/
def argLoop (fs : FS) (wd : String) : List ProcArg → LoopState → Except HasherError LoopState
  | [], st => .ok st
  | a :: rest, st =>
    if a.name = "hashers" then
      let hs := parseHashers a.value
      if hs = [] then .error (.procError "failed to find a valid hasher!")
      else argLoop fs wd rest { st with hashers := some hs }
    else if a.name = "filepath" then
      let fp := prepend_workdir wd a.value
      if fs.isFile fp || fs.isDir fp then argLoop fs wd rest { st with filepath := some fp }
      else .error (.procError ("filepath " ++ fp ++ " not found!"))
    else if a.name = "output_file" then
      argLoop fs wd rest { st with output_file := some (prepend_workdir wd a.value) }
    else
      argLoop fs wd rest st

/-- Line 104: the path column of a report row — the path relative to the
scanned root in directory mode, the file's *stem* (`file.stem`) in
single-file mode. -/
def rowPath (isDirMode : Bool) (root f : String) : String :=
  if isDirMode then relativeTo f root else pathStem f

/-- The file loop of lines 99–108: skip non-regular entries; for a regular
file, compute the row path (line 104), then build the row digests at line
106 as `','.join(self.__process_file(hashers, file))` — the async method is
called *without* `await`, so the call yields a coroutine object, and
`str.join` on a coroutine raises `TypeError` before any row is written. -/
def fileIter (H : String → List Nat → String) (fs : FS) (isDirMode : Bool)
    (root : String) (hs : List String) :
    List String → List HasherEvent × Option HasherError
  | [] => ([], none)
  | f :: rest =>
    if fs.isFile f = false then fileIter H fs isDirMode root hs rest
    else
      let _fpath := rowPath isDirMode root f
      let _coro : Coroutine (List String) := ⟨process_file H hs (fs.content f)⟩
      ([], some (.typeError "can only join an iterable (got coroutine)"))

/-- `HasherProcessor._run` (lines 60–108): check the workdir, run the
argument loop, create and open the output file, write the header line, pick
the file list (the single file, or the recursive walk in directory mode),
then run the file loop.  The result is the ordered list of filesystem events
together with the error the run raised, if any.  (`None` locals surviving
the loop make the later attribute accesses raise `TypeError`-class errors;
the claims below never exercise those paths.) -/
def hasher_run (H : String → List Nat → String) (fs : FS) (wd : String)
    (args : List ProcArg) : List HasherEvent × Option HasherError :=
  if fs.isDir wd = false then ([], some (.procError "agent-side workdir not found!"))
  else
    match argLoop fs wd args ⟨none, none, none⟩ with
    | .error e => ([], some e)
    | .ok st =>
      match st.output_file with
      | none => ([], some (.typeError "output_file is None"))
      | some out =>
        match st.hashers with
        | none => ([.createOutput out], some (.typeError "sorted argument is None"))
        | some hs =>
          match st.filepath with
          | none => ([.createOutput out, .writeLine (reportHeader hs)],
                     some (.typeError "filepath is None"))
          | some fp =>
            let isDirMode := fs.isDir fp
            let files := if isDirMode then fs.walk fp else [fp]
            let res := fileIter H fs isDirMode fp hs files
            (.createOutput out :: .writeLine (reportHeader hs) :: res.1, res.2)

lemma argLoop_empty_hashers (fs : FS) (wd : String) (args : List ProcArg) :
    ∀ st : LoopState,
    (∃ a ∈ args, a.name = "hashers") →
    (∀ a ∈ args, a.name = "hashers" → parseHashers a.value = []) →
    (∀ a ∈ args, a.name = "filepath" →
      (fs.isFile (prepend_workdir wd a.value) || fs.isDir (prepend_workdir wd a.value)) = true) →
    argLoop fs wd args st = .error (.procError "failed to find a valid hasher!") := by
  induction args with
  | nil =>
    intro st hex _ _
    obtain ⟨a, ha, _⟩ := hex
    exact absurd ha (List.not_mem_nil a)
  | cons a rest ih =>
    intro st hex hempty hfp
    have hex' : a.name = "hashers" ∨ ∃ b ∈ rest, b.name = "hashers" := by
      obtain ⟨b, hb, hbn⟩ := hex
      rcases List.mem_cons.mp hb with rfl | hb'
      · exact Or.inl hbn
      · exact Or.inr ⟨b, hb', hbn⟩
    have hempty' : ∀ b ∈ rest, b.name = "hashers" → parseHashers b.value = [] :=
      fun b hb => hempty b (List.mem_cons_of_mem a hb)
    have hfp' : ∀ b ∈ rest, b.name = "filepath" →
        (fs.isFile (prepend_workdir wd b.value) || fs.isDir (prepend_workdir wd b.value)) = true :=
      fun b hb => hfp b (List.mem_cons_of_mem a hb)
    by_cases hn : a.name = "hashers"
    · have h0 : parseHashers a.value = [] := hempty a (List.mem_cons_self a rest) hn
      simp [argLoop, hn, h0]
    · have hex'' : ∃ b ∈ rest, b.name = "hashers" := by
        rcases hex' with h | h
        · exact absurd h hn
        · exact h
      by_cases hf : a.name = "filepath"
      · have hcond := hfp a (List.mem_cons_self a rest) hf
        simp [argLoop, hn, hf, hcond, ih _ hex'' hempty' hfp']
      · by_cases ho : a.name = "output_file"
        · simp [argLoop, hn, hf, ho, ih _ hex'' hempty' hfp']
        · simp [argLoop, hn, hf, ho, ih _ hex'' hempty' hfp']

/-- C6: when the requested algorithm list — split on commas and intersected
with the guaranteed registry — is empty, the run raises the configuration
error `failed to find a valid hasher!` during the argument loop, with an
empty event trace: no input file has been opened and no output file has been
created.  (The hypotheses keep the other arguments well-formed so that no
earlier check preempts the loop.) -/
theorem empty_hashers_config_error (H : String → List Nat → String) (fs : FS)
    (wd : String) (args : List ProcArg)
    (hwd : fs.isDir wd = true)
    (hsome : ∃ a ∈ args, a.name = "hashers")
    (hempty : ∀ a ∈ args, a.name = "hashers" → parseHashers a.value = [])
    (hfp : ∀ a ∈ args, a.name = "filepath" →
      (fs.isFile (prepend_workdir wd a.value) || fs.isDir (prepend_workdir wd a.value)) = true) :
    hasher_run H fs wd args = ([], some (.procError "failed to find a valid hasher!")) := by
  unfold hasher_run
  rw [hwd]
  simp only [Bool.true_eq_false, if_false]
  rw [argLoop_empty_hashers fs wd args _ hsome hempty hfp]

/-- A tiny concrete filesystem for witnesses: workdir `/w` containing the
regular file `/w/f.txt` and the directory `/w/d`, which holds the single
regular file `/w/d/data.txt`. -/
def demoFS : FS where
  isFile := fun s => s == "/w/f.txt" || s == "/w/d/data.txt"
  isDir := fun s => s == "/w" || s == "/w/d"
  walk := fun s => if s == "/w/d" then ["/w/d/data.txt"] else []
  content := fun _ => [1, 2, 3]

/-- Witness for C6: a concrete invocation requesting only the unrecognised
algorithm `crc32` raises the configuration error with no event. -/
theorem empty_hashers_config_error_witness :
    (demoFS.isDir "/w" = true
      ∧ (∃ a ∈ [ProcArg.mk "hashers" "crc32", ProcArg.mk "filepath" "f.txt",
                 ProcArg.mk "output_file" "out.csv"], a.name = "hashers")
      ∧ (∀ a ∈ [ProcArg.mk "hashers" "crc32", ProcArg.mk "filepath" "f.txt",
                 ProcArg.mk "output_file" "out.csv"],
          a.name = "hashers" → parseHashers a.value = [])
      ∧ (∀ a ∈ [ProcArg.mk "hashers" "crc32", ProcArg.mk "filepath" "f.txt",
                 ProcArg.mk "output_file" "out.csv"],
          a.name = "filepath" →
          (demoFS.isFile (prepend_workdir "/w" a.value)
            || demoFS.isDir (prepend_workdir "/w" a.value)) = true))
    ∧ hasher_run demoHash demoFS "/w"
        [ProcArg.mk "hashers" "crc32", ProcArg.mk "filepath" "f.txt",
         ProcArg.mk "output_file" "out.csv"]
      = ([], some (.procError "failed to find a valid hasher!")) :=
  ⟨⟨by decide, by decide, by decide, by decide⟩,
    empty_hashers_config_error demoHash demoFS "/w" _
      (by decide) (by decide) (by decide) (by decide)⟩

/-! ## hasher.py — row path (C7) and row production (C8) -/

lemma findIdx?_getElem {α : Type} (p : α → Bool) :
    ∀ (l : List α) (j : Nat), l.findIdx? p = some j →
    ∃ x, l[j]? = some x ∧ p x = true := by
  intro l
  induction l with
  | nil => intro j h; simp at h
  | cons x xs ih =>
    intro j h
    rw [List.findIdx?_cons] at h
    by_cases hp : p x
    · simp only [hp, if_true, Option.some.injEq] at h
      subst h
      exact ⟨x, by simp, hp⟩
    · simp only [hp, if_false] at h
      rw [show (1 : Nat) = 0 + 1 from rfl, List.findIdx?_succ] at h
      obtain ⟨k, hk, hjk⟩ := Option.map_eq_some'.mp h
      obtain ⟨y, hy, hpy⟩ := ih k hk
      subst hjk
      exact ⟨y, by simpa using hy, hpy⟩

/-- A `pathlib` invariant relating the three name accessors: the final
component is the stem followed by the suffix. -/
lemma stem_append_suffix (s : String) : pathStem s ++ pathSuffix s = pathName s := by
  unfold pathStem pathSuffix
  cases h : ((pathName s).data.reverse).findIdx? (fun c => c = '.') with
  | none => simp [h]
  | some j =>
    simp only [h]
    by_cases hcond : 0 < j ∧ j < ((pathName s).data.reverse).length - 1
    · rw [if_pos hcond, if_pos hcond]
      obtain ⟨x, hget, hx⟩ := findIdx?_getElem _ _ j h
      have hxdot : x = '.' := by simpa using hx
      subst hxdot
      obtain ⟨hlt, hgetE⟩ := List.getElem?_eq_some_iff.mp hget
      apply String.ext
      simp only [String.data_append]
      set r := (pathName s).data.reverse with hr
      have hsplit : r = r.take j ++ r.drop j := (List.take_append_drop j r).symm
      have hdrop : r.drop j = '.' :: r.drop (j + 1) := by
        rw [List.drop_eq_getElem_cons hlt, hgetE]
      have hrev : (pathName s).data = r.reverse := by
        rw [hr, List.reverse_reverse]
      rw [hrev]
      conv_rhs => rw [hsplit, hdrop]
      simp
    · rw [if_neg hcond, if_neg hcond, String.append_empty]

/-- C7 counterexample: in single-file mode the path column is computed at
line 104 as `file.stem`, not the file's name — for the file
`/w/d/data.txt` the row records `data` while the file's own name is
`data.txt`. -/
theorem single_file_row_not_name :
    rowPath false "/w" "/w/d/data.txt" = "data"
    ∧ pathName "/w/d/data.txt" = "data.txt"
    ∧ ("data" : String) ≠ "data.txt" :=
  ⟨by decide, by decide, by decide⟩

/-- C7 amended: in single-file mode the path column of the report row is the
file's stem — the final path component with its last extension removed
(`name = stem ++ suffix`). -/
theorem single_file_row_is_stem (root f : String) :
    rowPath false root f = pathStem f
    ∧ pathStem f ++ pathSuffix f = pathName f :=
  ⟨rfl, stem_append_suffix f⟩

/-- C8 (code bug): hashing the directory `/w/d`, which holds exactly one
regular file, writes the header and then raises `TypeError` at the first
row — line 106 joins the coroutine returned by the un-awaited
`__process_file` call — so the run produces zero data rows instead of one
row per regular file. -/
theorem directory_run_writes_no_rows :
    hasher_run demoHash demoFS "/w"
      [ProcArg.mk "hashers" "md5,sha1", ProcArg.mk "filepath" "d",
       ProcArg.mk "output_file" "out.csv"]
    = ([.createOutput "/w/out.csv", .writeLine "md5,sha1,filepath"],
       some (.typeError "can only join an iterable (got coroutine)")) := by
  decide

/-! ## yara.py — persisting the scanner's stdout -/

/-- A completed scanner subprocess: the captured output streams and the
child's exit status. -/
structure SubprocessResult where
  stdoutBytes : List Nat
  stderrBytes : List Nat
  exitStatus : Int
  deriving DecidableEq, Repr

/-- Modelled from the spec: `_handle_communicating_process` lives in
`datashark_core.processor`, outside this repository's sources.  Per the spec
(§4.5) it awaits the child and hands back the fully buffered
`(stdout, stderr)` byte streams; a non-zero or non-matching exit status is
not automatically fatal at this layer. -/
def handle_communicating_process (r : SubprocessResult) : List Nat × List Nat :=
  (r.stdoutBytes, r.stderrBytes)

/-- Lines 220–224 of `YaraProcessor._run`: after the subprocess completes,
`stdout, _ = await self._handle_communicating_process(proc)` and then
`output.write_bytes(stdout)` — unconditionally.  The result is the list of
(path, bytes) writes the run performs. -/
def yara_run (output : String) (r : SubprocessResult) : List (String × List Nat) :=
  let res := handle_communicating_process r
  [(output, res.1)]

/-- C9: the bytes written to the declared output path are exactly the
captured standard-output stream, and the write happens for every exit
status — replacing the exit status (or the stderr stream) changes nothing
about what is written. -/
theorem yara_writes_stdout (output : String) (r : SubprocessResult) :
    yara_run output r = [(output, r.stdoutBytes)]
    ∧ (∀ status : Int, ∀ errBytes : List Nat,
        yara_run output ⟨r.stdoutBytes, errBytes, status⟩ = yara_run output r) :=
  ⟨rfl, fun _ _ => rfl⟩
